import Mathlib

/-!
Shallow embedding of the coffee-roast classification pipeline of this
repository: the fixed class table, the argmax label selection performed in
the page variants, the tf.js resize/normalize/batch preprocessing chain,
the resource bookkeeping of a predict call, and the session state machines
of the capture variants.  Confidence values and normalized samples are
modelled as rationals; only their ordered-field structure is used.
-/

/-- One entry of the fixed roast-class table: a roast name and its flavour text. -/
structure ClassLabel where
  name : String
  description : String
deriving DecidableEq

/-- The fixed four-entry class table, in the order Dark, Green, Light, Medium,
as declared by the `classLabels` constant at the top of every page variant
(English texts of the stream-capture variant). -/
def classLabels : List ClassLabel :=
  [ { name := "Dark",
      description := "Bold, smoky flavor with low acidity and visible oils on the beans. Often has chocolate or caramel notes." },
    { name := "Green",
      description := "Unroasted beans with grassy, herbal flavors. Higher acidity and caffeine content before roasting." },
    { name := "Light",
      description := "Light brown color, no oil on beans. Bright acidity with floral/fruity notes and toasted grain flavors." },
    { name := "Medium",
      description := "Balanced flavor with medium acidity and body. Shows caramel sweetness with nutty/chocolate undertones." } ]

/-- Math.max over the spread of the confidence vector, as computed by
`Math.max(...Array.from(data))` in `handlePredict` (0 plays the role of the
irrelevant value on the empty list, which the pipeline never produces). -/
def jsMax : List ℚ → ℚ
  | [] => 0
  | x :: xs => xs.foldl max x

/-- Array.prototype.indexOf: position of the first element equal to `x`
(the pipeline only applies it to a value known to occur in the list). -/
def jsIndexOf (x : ℚ) : List ℚ → ℕ
  | [] => 0
  | a :: l => if a = x then 0 else jsIndexOf x l + 1

/-- The predicted index computed by `handlePredict`:
`Array.from(data).indexOf(Math.max(...Array.from(data)))`. -/
def predictedIndex (data : List ℚ) : ℕ := jsIndexOf (jsMax data) data

/-- The label the page stores via `setPrediction(classLabels[predictedIndex])`;
an out-of-range subscript in JavaScript yields `undefined`, modelled by `none`. -/
def predictLabel (data : List ℚ) : Option ClassLabel :=
  classLabels.get? (predictedIndex data)

lemma le_foldl_max (a : ℚ) (l : List ℚ) : a ≤ l.foldl max a := by
  induction l generalizing a with
  | nil => exact le_refl a
  | cons b t ih => exact le_trans (le_max_left a b) (ih (max a b))

lemma mem_le_foldl_max {x : ℚ} (a : ℚ) {l : List ℚ} (hx : x ∈ l) :
    x ≤ l.foldl max a := by
  induction l generalizing a with
  | nil => cases hx
  | cons b t ih =>
    rcases List.mem_cons.mp hx with h | h
    · subst h
      exact le_trans (le_max_right a x) (le_foldl_max (max a x) t)
    · exact ih (max a b) h

lemma foldl_max_eq_or_mem (a : ℚ) (l : List ℚ) :
    l.foldl max a = a ∨ l.foldl max a ∈ l := by
  induction l generalizing a with
  | nil => exact Or.inl rfl
  | cons b t ih =>
    have hstep : (b :: t).foldl max a = t.foldl max (max a b) := rfl
    rcases ih (max a b) with h | h
    · rcases max_choice a b with hm | hm
      · exact Or.inl (by rw [hstep, h, hm])
      · exact Or.inr (by rw [hstep, h, hm]; exact List.mem_cons_self b t)
    · exact Or.inr (by rw [hstep]; exact List.mem_cons_of_mem b h)

lemma jsMax_mem {l : List ℚ} (h : l ≠ []) : jsMax l ∈ l := by
  cases l with
  | nil => exact absurd rfl h
  | cons x xs =>
    rcases foldl_max_eq_or_mem x xs with h1 | h1
    · rw [jsMax, h1]; exact List.mem_cons_self x xs
    · rw [jsMax]; exact List.mem_cons_of_mem x h1

lemma le_jsMax {x : ℚ} {l : List ℚ} (hx : x ∈ l) : x ≤ jsMax l := by
  cases l with
  | nil => cases hx
  | cons b t =>
    rcases List.mem_cons.mp hx with h | h
    · subst h; exact le_foldl_max x t
    · exact mem_le_foldl_max b h

lemma jsIndexOf_lt_length {x : ℚ} {l : List ℚ} (h : x ∈ l) :
    jsIndexOf x l < l.length := by
  induction l with
  | nil => cases h
  | cons a t ih =>
    by_cases hax : a = x
    · simp [jsIndexOf, hax]
    · rcases List.mem_cons.mp h with h1 | h1
      · exact absurd h1.symm hax
      · rw [jsIndexOf, if_neg hax]
        simpa [List.length_cons] using Nat.succ_lt_succ (ih h1)

lemma getD_jsIndexOf {x : ℚ} {l : List ℚ} (h : x ∈ l) :
    l.getD (jsIndexOf x l) 0 = x := by
  induction l with
  | nil => cases h
  | cons a t ih =>
    by_cases hax : a = x
    · simp [jsIndexOf, hax]
    · rcases List.mem_cons.mp h with h1 | h1
      · exact absurd h1.symm hax
      · rw [jsIndexOf, if_neg hax]
        simpa using ih h1

lemma getD_ne_of_lt_jsIndexOf {x : ℚ} {l : List ℚ} {j : ℕ}
    (hj : j < jsIndexOf x l) : l.getD j 0 ≠ x := by
  induction l generalizing j with
  | nil => simp [jsIndexOf] at hj
  | cons a t ih =>
    by_cases hax : a = x
    · rw [jsIndexOf, if_pos hax] at hj; omega
    · rw [jsIndexOf, if_neg hax] at hj
      cases j with
      | zero => simpa using hax
      | succ n =>
        rw [List.getD_cons_succ]
        exact ih (by omega)

lemma getD_mem {l : List ℚ} {j : ℕ} (h : j < l.length) : l.getD j 0 ∈ l := by
  induction l generalizing j with
  | nil => simp at h
  | cons a t ih =>
    cases j with
    | zero => simp
    | succ n =>
      rw [List.getD_cons_succ]
      exact List.mem_cons_of_mem a (ih (by simpa [List.length_cons] using h))

lemma classLabels_get?_eq (n : ℕ) (hn : n < 4) :
    classLabels.get? n = some (classLabels.getD n { name := "", description := "" }) := by
  interval_cases n <;> rfl

/-- Claim C1: for every length-4 confidence vector, the predicted label is the
entry of the fixed four-entry class table at the position of the maximum
value; ties resolve to the lowest index among the tied positions (every
earlier entry is strictly below the selected one), and the all-equal vector
resolves to index 0, the label named Dark. -/
theorem predict_argmax_spec (data : List ℚ) (h : data.length = 4) :
    predictedIndex data < 4
    ∧ predictLabel data
        = some (classLabels.getD (predictedIndex data) { name := "", description := "" })
    ∧ (∀ j, j < 4 → data.getD j 0 ≤ data.getD (predictedIndex data) 0)
    ∧ (∀ j, j < predictedIndex data → data.getD j 0 < data.getD (predictedIndex data) 0)
    ∧ (data = [1/4, 1/4, 1/4, 1/4] → predictedIndex data = 0
        ∧ Option.map ClassLabel.name (predictLabel data) = some "Dark") := by
  have hne : data ≠ [] := by
    intro hnil; rw [hnil] at h; simp at h
  have hmem : jsMax data ∈ data := jsMax_mem hne
  have hidx : predictedIndex data < 4 := by
    have hlt := jsIndexOf_lt_length hmem
    rw [h] at hlt
    exact hlt
  have hget : data.getD (predictedIndex data) 0 = jsMax data := getD_jsIndexOf hmem
  refine ⟨hidx, ?_, ?_, ?_, ?_⟩
  · rw [predictLabel, classLabels_get?_eq _ hidx]
  · intro j hj
    rw [hget]
    exact le_jsMax (getD_mem (by omega))
  · intro j hj
    have hle : data.getD j 0 ≤ data.getD (predictedIndex data) 0 := by
      rw [hget]
      exact le_jsMax (getD_mem (by omega))
    have hneq : data.getD j 0 ≠ data.getD (predictedIndex data) 0 := by
      rw [hget]
      exact getD_ne_of_lt_jsIndexOf hj
    exact lt_of_le_of_ne hle hneq
  · intro hdata
    subst hdata
    have hm : jsMax [1/4, 1/4, 1/4, 1/4] = (1/4 : ℚ) := by
      simp [jsMax, List.foldl, max_self]
    have hidx0 : predictedIndex [1/4, 1/4, 1/4, 1/4] = 0 := by
      rw [predictedIndex, hm]
      simp [jsIndexOf]
    refine ⟨hidx0, ?_⟩
    rw [predictLabel, hidx0]
    rfl

/-- Witness for C1 at the all-tied vector of Scenario B. -/
theorem predict_argmax_spec_witness :
    predictedIndex [1/4, 1/4, 1/4, 1/4] < 4 :=
  (predict_argmax_spec [1/4, 1/4, 1/4, 1/4] rfl).1

/-- An in-memory decoded bitmap: width, height, and an RGB sample grid of
8-bit integer samples (3 color channels, values 0..255), as delivered by
`tf.browser.fromPixels` on a decoded image element. -/
structure RawImage where
  width : ℕ
  height : ℕ
  pixel : ℕ → ℕ → Fin 3 → Fin 256

/-- A rank-4 tensor as produced by the preprocessing chain: a shape list and
an element function over batch, row, column and channel indices. -/
structure Tensor where
  shape : List ℕ
  val : ℕ → ℕ → ℕ → Fin 3 → ℚ

/-- Failure conditions of the image-loading/preprocessing step. -/
inductive PrepError
  | invalidImage
deriving DecidableEq

/-- Fractional source coordinate of output index `outIdx` when resizing a
dimension of `inSize` samples down to `outSize` samples with
`resizeBilinear` at its defaults (alignCorners and halfPixelCenters both
false): the effective size ratio `inSize / outSize` times the output index. -/
def srcFrac (inSize outIdx outSize : ℕ) : ℚ :=
  ((outIdx : ℚ) * (inSize : ℚ)) / (outSize : ℚ)

/-- Bilinear sample of the tf.js CPU kernel at output position `(r, c)` and
channel `ch`: floor/ceil source indices (the ceil clamped to the last input
index), and linear interpolation first along the column then along the row,
computed exactly as `value = low + (high - low) * frac`. -/
def bilinearSample (img : RawImage) (r c : ℕ) (ch : Fin 3) : ℚ :=
  let fr := srcFrac img.height r 256
  let fc := srcFrac img.width c 256
  let r0 := (⌊fr⌋).toNat
  let r1 := min (img.height - 1) ((⌈fr⌉).toNat)
  let c0 := (⌊fc⌋).toNat
  let c1 := min (img.width - 1) ((⌈fc⌉).toNat)
  let rowFrac := fr - (r0 : ℚ)
  let colFrac := fc - (c0 : ℚ)
  let tl : ℚ := ((img.pixel r0 c0 ch : ℕ) : ℚ)
  let tr : ℚ := ((img.pixel r0 c1 ch : ℕ) : ℚ)
  let bl : ℚ := ((img.pixel r1 c0 ch : ℕ) : ℚ)
  let br : ℚ := ((img.pixel r1 c1 ch : ℕ) : ℚ)
  let top := tl + (tr - tl) * colFrac
  let bottom := bl + (br - bl) * colFrac
  top + (bottom - top) * rowFrac

/-- The preprocessing chain of `handlePredict`:
`fromPixels(img).resizeBilinear([256, 256]).toFloat().div(255.0).expandDims()`.
Modelled from the spec: the failure branch for a zero-dimension bitmap is the
InvalidImage condition of the preprocessing contract (the resize of an empty
bitmap fails inside the tf.js library, which is outside this repository, and
is surfaced by the surrounding catch); the success branch follows the source
chain of resize, float conversion, division by 255 and a leading batch
dimension of size 1. -/
def preprocess (img : RawImage) : Except PrepError Tensor :=
  if img.width = 0 ∨ img.height = 0 then
    Except.error PrepError.invalidImage
  else
    Except.ok
      { shape := [1, 256, 256, 3],
        val := fun _b r c ch => bilinearSample img r c ch / 255 }

/-- Image loading followed by preprocessing: an image that cannot be decoded
(the `img.onerror` branch of the source) never reaches the tensor chain and
is the same InvalidImage failure of the preprocessing step. -/
def loadAndPreprocess (decoded : Option RawImage) : Except PrepError Tensor :=
  match decoded with
  | none => Except.error PrepError.invalidImage
  | some img => preprocess img

lemma lerp_bounds {a b t : ℚ} (ha0 : 0 ≤ a) (ha1 : a ≤ 255) (hb0 : 0 ≤ b)
    (hb1 : b ≤ 255) (ht0 : 0 ≤ t) (ht1 : t ≤ 1) :
    0 ≤ a + (b - a) * t ∧ a + (b - a) * t ≤ 255 := by
  constructor
  · nlinarith [mul_nonneg (sub_nonneg.mpr ht1) ha0, mul_nonneg ht0 hb0]
  · nlinarith [mul_nonneg (sub_nonneg.mpr ht1) (sub_nonneg.mpr ha1),
      mul_nonneg ht0 (sub_nonneg.mpr hb1)]

lemma pixel_cast_bounds (p : Fin 256) :
    0 ≤ ((p : ℕ) : ℚ) ∧ ((p : ℕ) : ℚ) ≤ 255 := by
  constructor
  · positivity
  · have hp : (p : ℕ) ≤ 255 := Nat.lt_succ_iff.mp p.isLt
    exact_mod_cast hp

lemma frac_bounds (x : ℚ) (hx : 0 ≤ x) :
    0 ≤ x - ((⌊x⌋).toNat : ℚ) ∧ x - ((⌊x⌋).toNat : ℚ) ≤ 1 := by
  have hfl : 0 ≤ ⌊x⌋ := Int.floor_nonneg.mpr hx
  have hcast : (((⌊x⌋).toNat : ℕ) : ℚ) = ((⌊x⌋ : ℤ) : ℚ) := by
    exact_mod_cast congrArg Int.cast (Int.toNat_of_nonneg hfl)
  rw [hcast]
  constructor
  · have := Int.floor_le x
    linarith
  · have := Int.lt_floor_add_one x
    linarith

lemma srcFrac_nonneg (inSize outIdx outSize : ℕ) : 0 ≤ srcFrac inSize outIdx outSize := by
  unfold srcFrac
  positivity

lemma bilinearSample_bounds (img : RawImage) (r c : ℕ) (ch : Fin 3) :
    0 ≤ bilinearSample img r c ch ∧ bilinearSample img r c ch ≤ 255 := by
  unfold bilinearSample
  have hrow := frac_bounds (srcFrac img.height r 256) (srcFrac_nonneg _ _ _)
  have hcol := frac_bounds (srcFrac img.width c 256) (srcFrac_nonneg _ _ _)
  have htl := pixel_cast_bounds (img.pixel ((⌊srcFrac img.height r 256⌋).toNat)
    ((⌊srcFrac img.width c 256⌋).toNat) ch)
  have htr := pixel_cast_bounds (img.pixel ((⌊srcFrac img.height r 256⌋).toNat)
    (min (img.width - 1) ((⌈srcFrac img.width c 256⌉).toNat)) ch)
  have hbl := pixel_cast_bounds (img.pixel
    (min (img.height - 1) ((⌈srcFrac img.height r 256⌉).toNat))
    ((⌊srcFrac img.width c 256⌋).toNat) ch)
  have hbr := pixel_cast_bounds (img.pixel
    (min (img.height - 1) ((⌈srcFrac img.height r 256⌉).toNat))
    (min (img.width - 1) ((⌈srcFrac img.width c 256⌉).toNat)) ch)
  have htop := lerp_bounds htl.1 htl.2 htr.1 htr.2 hcol.1 hcol.2
  have hbot := lerp_bounds hbl.1 hbl.2 hbr.1 hbr.2 hcol.1 hcol.2
  exact lerp_bounds htop.1 htop.2 hbot.1 hbot.2 hrow.1 hrow.2

/-- Claim C2: preprocessing a bitmap with positive width and height and 3
color channels yields a tensor of shape exactly [1, 256, 256, 3] whose
elements all lie in the closed interval [0, 1]. -/
theorem preprocess_ok_shape_range (img : RawImage) (hw : 0 < img.width)
    (hh : 0 < img.height) :
    ∃ t, preprocess img = Except.ok t ∧ t.shape = [1, 256, 256, 3]
      ∧ ∀ b r c ch, 0 ≤ t.val b r c ch ∧ t.val b r c ch ≤ 1 := by
  refine ⟨{ shape := [1, 256, 256, 3],
            val := fun _b r c ch => bilinearSample img r c ch / 255 }, ?_, rfl, ?_⟩
  · unfold preprocess
    rw [if_neg]
    push_neg
    omega
  · intro b r c ch
    have hb := bilinearSample_bounds img r c ch
    constructor
    · exact div_nonneg hb.1 (by norm_num)
    · rw [div_le_one (by norm_num : (0:ℚ) < 255)]
      exact hb.2

/-- A concrete one-pixel black bitmap. -/
def sampleImage : RawImage :=
  { width := 1, height := 1, pixel := fun _ _ _ => 0 }

/-- Witness for C2 at a concrete one-pixel bitmap. -/
theorem preprocess_ok_shape_range_witness :
    ∃ t, preprocess sampleImage = Except.ok t ∧ t.shape = [1, 256, 256, 3]
      ∧ ∀ b r c ch, 0 ≤ t.val b r c ch ∧ t.val b r c ch ≤ 1 :=
  preprocess_ok_shape_range sampleImage (by decide) (by decide)

/-- Claim C4: a source bitmap that cannot be decoded or has zero width or
zero height makes the loading/preprocessing step fail with InvalidImage;
no tensor, not even a partial one, is produced. -/
theorem preprocess_invalid_image (decoded : Option RawImage)
    (h : decoded = none
      ∨ ∃ img, decoded = some img ∧ (img.width = 0 ∨ img.height = 0)) :
    loadAndPreprocess decoded = Except.error PrepError.invalidImage
      ∧ ∀ t, loadAndPreprocess decoded ≠ Except.ok t := by
  have herr : loadAndPreprocess decoded = Except.error PrepError.invalidImage := by
    rcases h with h | ⟨img, himg, hdim⟩
    · rw [h]; rfl
    · rw [himg]
      show preprocess img = Except.error PrepError.invalidImage
      unfold preprocess
      rw [if_pos hdim]
  refine ⟨herr, ?_⟩
  intro t ht
  rw [herr] at ht
  cases ht

/-- A concrete zero-width bitmap, as left behind by a device handle closed
mid-capture. -/
def zeroWidthImage : RawImage :=
  { width := 0, height := 5, pixel := fun _ _ _ => 0 }

/-- Witness for C4 at a concrete zero-width bitmap. -/
theorem preprocess_invalid_image_witness :
    loadAndPreprocess (some zeroWidthImage) = Except.error PrepError.invalidImage
      ∧ ∀ t, loadAndPreprocess (some zeroWidthImage) ≠ Except.ok t :=
  preprocess_invalid_image (some zeroWidthImage)
    (Or.inr ⟨zeroWidthImage, rfl, Or.inl rfl⟩)

/-- Outcome of the model forward pass `model.predict(tensor)`: either it
throws, or it returns an output tensor whose buffer reads back as `data`. -/
inductive ForwardOutcome
  | throws
  | returns (data : List ℚ)
deriving DecidableEq

/-- Outcome of reading the raw output buffer, `await output.data()`. -/
inductive ReadOutcome
  | throws
  | returns
deriving DecidableEq

/-- Resource and result bookkeeping of one inference body. -/
structure InferTrace where
  tensorDisposed : Bool
  outputAllocated : Bool
  outputDisposed : Bool
  prediction : Option ClassLabel
  errored : Bool
deriving DecidableEq

/-- The inference body of `handlePredict` (the `img.onload` try block):
the input tensor is built first; `model.predict` then either throws —
control jumps to the catch, skipping both `dispose` calls — or yields the
output tensor; `await output.data()` likewise either throws past the
`dispose` calls or succeeds, after which `tensor.dispose()` and
`output.dispose()` run and the argmax label is stored. -/
def runInference (fwd : ForwardOutcome) (rd : ReadOutcome) : InferTrace :=
  match fwd with
  | ForwardOutcome.throws =>
      { tensorDisposed := false, outputAllocated := false,
        outputDisposed := false, prediction := none, errored := true }
  | ForwardOutcome.returns data =>
      match rd with
      | ReadOutcome.throws =>
          { tensorDisposed := false, outputAllocated := true,
            outputDisposed := false, prediction := none, errored := true }
      | ReadOutcome.returns =>
          { tensorDisposed := true, outputAllocated := true,
            outputDisposed := true, prediction := predictLabel data,
            errored := false }

/-- Counterexample to C6: if the forward pass throws, the input tensor is
not disposed, and if reading the output buffer throws, neither the tensor
nor the allocated output buffer is disposed. -/
theorem runInference_leak_on_failure :
    (runInference ForwardOutcome.throws ReadOutcome.returns).tensorDisposed = false
    ∧ (runInference (ForwardOutcome.returns [1, 0, 0, 0]) ReadOutcome.throws).tensorDisposed = false
    ∧ (runInference (ForwardOutcome.returns [1, 0, 0, 0]) ReadOutcome.throws).outputAllocated = true
    ∧ (runInference (ForwardOutcome.returns [1, 0, 0, 0]) ReadOutcome.throws).outputDisposed = false :=
  ⟨rfl, rfl, rfl, rfl⟩

/-- Claim C6 as amended: the input tensor and the raw output buffer are both
released exactly on the success path, namely when the forward pass returns
and the output read succeeds; on the failure paths nothing allocated for the
call is released. -/
theorem runInference_dispose_iff (fwd : ForwardOutcome) (rd : ReadOutcome) :
    ((runInference fwd rd).tensorDisposed = true
        ∧ (runInference fwd rd).outputDisposed = true)
      ↔ ((∃ data, fwd = ForwardOutcome.returns data) ∧ rd = ReadOutcome.returns) := by
  cases fwd with
  | throws => simp [runInference]
  | returns data =>
    cases rd with
    | throws => simp [runInference]
    | returns => simp [runInference]

/-- Session state of the stream-capture page variant: the loaded-model flag,
the stored prediction, the busy flag `isLoading`, the camera-active flag,
the captured data URL, the error message, and whether the media tracks of
the stream held in `streamRef` are still live. -/
structure P0State where
  model : Bool
  prediction : Option ClassLabel
  isLoading : Bool
  cameraActive : Bool
  capturedImage : Option String
  error : Option String
  trackLive : Bool
deriving DecidableEq

/-- State right after the mount effect finishes loading the model:
`setModel` on success, `setError` on failure, `setIsLoading(false)` in the
finally block either way. -/
def p0Start (loadOk : Bool) : P0State :=
  { model := loadOk,
    prediction := none,
    isLoading := false,
    cameraActive := false,
    capturedImage := none,
    error := if loadOk then none
             else some "Failed to load the model. Please try again later.",
    trackLive := false }

/-- The `startCamera` handler: clear error, prediction and captured image,
then request the stream; on grant the stream is stored (its tracks live) and,
when the video element is mounted, playback starts and the camera is marked
active; on denial the catch stores the error message. -/
def startCamera0 (s : P0State) (grant videoPresent : Bool) : P0State :=
  let s1 := { s with error := none, prediction := none, capturedImage := none }
  if grant then
    let s2 := { s1 with trackLive := true }
    if videoPresent then { s2 with cameraActive := true } else s2
  else
    { s1 with error := some "Could not access camera. Please check permissions and try again." }

/-- The `captureImage` handler: when the video and canvas refs are mounted
(and a 2d context exists), the current frame is drawn, its data URL stored,
the camera marked inactive, and the stream tracks stopped; otherwise nothing
happens. -/
def captureImage0 (s : P0State) (refsPresent : Bool) (img : String) : P0State :=
  if refsPresent then
    { s with capturedImage := some img, cameraActive := false, trackLive := false }
  else s

/-- Resolution of one `handlePredict` call of the stream-capture variant:
the image decode either fails (`img.onerror`), or the tensor pipeline and
forward pass fail inside the try (`catch`), or inference succeeds with
confidence vector `data`. -/
inductive PredictOutcome
  | decodeFail
  | runFail
  | success (data : List ℚ)
deriving DecidableEq

/-- The `handlePredict` handler of the stream-capture variant: it returns at
once unless a model and a captured image are present; otherwise it sets the
busy flag and, when the decode resolves, stores either the error message or
the argmax label, clearing the busy flag in the finally block.  Note that no
branch of this handler clears a pre-existing error or a pre-existing
prediction. -/
def handlePredict0 (s : P0State) (o : PredictOutcome) : P0State :=
  if s.model = false ∨ s.capturedImage = none then s
  else
    let s1 := { s with isLoading := true }
    match o with
    | PredictOutcome.decodeFail =>
        { s1 with error := some "Failed to load image. Please try again.",
                  isLoading := false }
    | PredictOutcome.runFail =>
        { s1 with error := some "Error processing image. Please try again.",
                  isLoading := false }
    | PredictOutcome.success data =>
        { s1 with prediction := predictLabel data, isLoading := false }

/-- The `resetCamera` handler (the Retake button): clear the captured image,
prediction and error, then immediately call `startCamera`. -/
def resetCamera0 (s : P0State) (grant videoPresent : Bool) : P0State :=
  startCamera0
    { s with capturedImage := none, prediction := none, error := none }
    grant videoPresent

/-- User-visible events of the stream-capture component; the boolean
arguments resolve the environment (permission grant, mounted refs) and the
payloads carry the captured data URL or the inference outcome. -/
inductive P0Event
  | startCameraClick (grant videoPresent : Bool)
  | captureClick (refsPresent : Bool) (img : String)
  | predictClick (o : PredictOutcome)
  | retakeClick (grant videoPresent : Bool)
  | unmount

/-- Event dispatch of the stream-capture component, including the render
conditions and `disabled` attributes of the markup: the Start Camera button
is rendered only when neither a camera nor a captured image is active and is
disabled while busy; the capture button is rendered only while the camera is
active; the Retake and Predict buttons are rendered only with a captured
image and Predict is disabled while busy; the unmount cleanup of the mount
effect stops the stream tracks. -/
def dispatch0 (s : P0State) (e : P0Event) : P0State :=
  match e with
  | P0Event.startCameraClick g v =>
      if s.cameraActive = false ∧ s.capturedImage = none ∧ s.isLoading = false
      then startCamera0 s g v else s
  | P0Event.captureClick refs img =>
      if s.cameraActive = true then captureImage0 s refs img else s
  | P0Event.predictClick o =>
      if s.capturedImage.isSome = true ∧ s.isLoading = false
      then handlePredict0 s o else s
  | P0Event.retakeClick g v =>
      if s.capturedImage.isSome = true then resetCamera0 s g v else s
  | P0Event.unmount => { s with trackLive := false }

/-- States of the stream-capture component reachable from a finished model
load by dispatching events. -/
inductive P0Reachable : P0State → Prop
  | start (loadOk : Bool) : P0Reachable (p0Start loadOk)
  | step (s : P0State) (e : P0Event) : P0Reachable s → P0Reachable (dispatch0 s e)

/-- The part of the session-state invariant that the handlers do maintain:
a stored prediction implies a stored captured image, and the camera-active
flag excludes a stored captured image. -/
def P0Inv (s : P0State) : Prop :=
  (s.prediction.isSome = true → s.capturedImage.isSome = true)
  ∧ ¬(s.cameraActive = true ∧ s.capturedImage.isSome = true)

lemma p0Inv_startCamera0 (s : P0State) (g v : Bool) : P0Inv (startCamera0 s g v) := by
  unfold P0Inv startCamera0
  cases g <;> cases v <;> simp

lemma p0Inv_captureImage0 (s : P0State) (refs : Bool) (img : String)
    (h : P0Inv s) : P0Inv (captureImage0 s refs img) := by
  unfold captureImage0
  split
  · exact ⟨fun _ => by simp, by simp⟩
  · exact h

lemma p0Inv_handlePredict0 (s : P0State) (o : PredictOutcome)
    (h : P0Inv s) : P0Inv (handlePredict0 s o) := by
  obtain ⟨h1, h2⟩ := h
  unfold handlePredict0
  split
  · exact ⟨h1, h2⟩
  · next hg =>
    push_neg at hg
    have hcap : s.capturedImage.isSome = true := by
      rcases hv : s.capturedImage with _ | v
      · exact absurd hv hg.2
      · rfl
    cases o with
    | decodeFail => exact ⟨fun _ => hcap, fun hc => h2 ⟨hc.1, hc.2⟩⟩
    | runFail => exact ⟨fun _ => hcap, fun hc => h2 ⟨hc.1, hc.2⟩⟩
    | success data => exact ⟨fun _ => hcap, fun hc => h2 ⟨hc.1, hc.2⟩⟩

lemma p0Inv_step (s : P0State) (e : P0Event) (h : P0Inv s) : P0Inv (dispatch0 s e) := by
  cases e with
  | startCameraClick g v =>
    simp only [dispatch0]
    split
    · exact p0Inv_startCamera0 s g v
    · exact h
  | captureClick refs img =>
    simp only [dispatch0]
    split
    · exact p0Inv_captureImage0 s refs img h
    · exact h
  | predictClick o =>
    simp only [dispatch0]
    split
    · exact p0Inv_handlePredict0 s o h
    · exact h
  | retakeClick g v =>
    simp only [dispatch0]
    split
    · exact p0Inv_startCamera0 _ g v
    · exact h
  | unmount =>
    simp only [dispatch0]
    exact ⟨h.1, h.2⟩

lemma p0Inv_start (loadOk : Bool) : P0Inv (p0Start loadOk) := by
  unfold P0Inv p0Start
  cases loadOk <;> simp

lemma p0_reachable_inv {s : P0State} (h : P0Reachable s) : P0Inv s := by
  induction h with
  | start loadOk => exact p0Inv_start loadOk
  | step s e _hs ih => exact p0Inv_step s e ih

/-- Session state after: model loaded, camera started and granted, a frame
captured, one predict whose pipeline threw, and a second predict that
succeeded on the all-tied confidence vector.  Each step is permitted by the
rendered controls (`isLoading` is false before every click). -/
def c3Trace : P0State :=
  dispatch0
    (dispatch0
      (dispatch0
        (dispatch0 (p0Start true) (P0Event.startCameraClick true true))
        (P0Event.captureClick true "frame"))
      (P0Event.predictClick PredictOutcome.runFail))
    (P0Event.predictClick (PredictOutcome.success [1/4, 1/4, 1/4, 1/4]))

lemma c3Trace_reachable : P0Reachable c3Trace :=
  P0Reachable.step _ _ (P0Reachable.step _ _ (P0Reachable.step _ _
    (P0Reachable.step _ _ (P0Reachable.start true))))

lemma predictLabel_quarter :
    predictLabel [1/4, 1/4, 1/4, 1/4] = classLabels.get? 0 := by
  have hm : jsMax [1/4, 1/4, 1/4, 1/4] = (1/4 : ℚ) := by
    simp [jsMax, List.foldl, max_self]
  rw [predictLabel, predictedIndex, hm]
  simp [jsIndexOf]

lemma c3Trace_prediction_isSome : c3Trace.prediction.isSome = true := by
  have hp : c3Trace.prediction = predictLabel [1/4, 1/4, 1/4, 1/4] := rfl
  rw [hp, predictLabel_quarter]
  rfl

/-- Counterexample to C3: a reachable session state holds a non-null
prediction together with a non-null pending error — a successful predict
does not clear the error left by an earlier failed predict, so the claimed
invariant fails on the code. -/
theorem prediction_and_error_coexist :
    P0Reachable c3Trace
    ∧ c3Trace.prediction.isSome = true
    ∧ c3Trace.error.isSome = true :=
  ⟨c3Trace_reachable, c3Trace_prediction_isSome, rfl⟩

/-- Claim C3 as amended: in every reachable session state of the
stream-capture variant, the prediction field is non-null only if the image
field is non-null; the error conjunct of the original claim is dropped,
since no branch of `handlePredict` clears a pre-existing error on success
(nor a pre-existing prediction on failure). -/
theorem reachable_prediction_requires_image (s : P0State) (h : P0Reachable s)
    (hp : s.prediction.isSome = true) : s.capturedImage.isSome = true :=
  (p0_reachable_inv h).1 hp

/-- Witness for the amended C3 at a concrete reachable state holding a
prediction. -/
theorem reachable_prediction_requires_image_witness :
    c3Trace.capturedImage.isSome = true :=
  reachable_prediction_requires_image c3Trace c3Trace_reachable
    c3Trace_prediction_isSome

/-- Claim C5: a predict request issued while the busy flag is set is
rejected immediately and not queued — the Predict button carries
`disabled` while `isLoading` is true, so the click never reaches
`handlePredict` and the session state is returned unchanged in every
field. -/
theorem predict_rejected_while_busy (s : P0State) (o : PredictOutcome)
    (h : s.isLoading = true) : dispatch0 s (P0Event.predictClick o) = s := by
  simp [dispatch0, h]

/-- A concrete busy session state: a prediction is in flight on a captured
frame. -/
def busyState : P0State :=
  { model := true, prediction := none, isLoading := true, cameraActive := false,
    capturedImage := some "frame", error := none, trackLive := false }

/-- Witness for C5 at a concrete busy state. -/
theorem predict_rejected_while_busy_witness :
    dispatch0 busyState (P0Event.predictClick PredictOutcome.runFail) = busyState :=
  predict_rejected_while_busy busyState PredictOutcome.runFail rfl

/-- Session state after the model loads, the camera starts on a granted
device, and a frame is captured. -/
def c9Captured : P0State :=
  dispatch0 (dispatch0 (p0Start true) (P0Event.startCameraClick true true))
    (P0Event.captureClick true "frame")

/-- Counterexample to C9: capturing an image and immediately performing the
retake/reset transition does not return the session to Idle — `resetCamera`
ends by calling `startCamera`, so with the camera grant the session ends
camera-active. -/
theorem reset_after_capture_not_idle :
    (dispatch0 c9Captured (P0Event.retakeClick true true)).cameraActive = true := by
  decide

/-- Claim C9 as amended: capturing an image then immediately resetting
clears the image, prediction and error fields to null, but leaves the
session with the camera restarted (camera-active) when the renewed device
acquisition is granted, rather than in Idle. -/
theorem reset_after_capture_clears_and_restarts (s : P0State) (img : String)
    (h : s.cameraActive = true) :
    (dispatch0 (dispatch0 s (P0Event.captureClick true img))
        (P0Event.retakeClick true true)).capturedImage = none
    ∧ (dispatch0 (dispatch0 s (P0Event.captureClick true img))
        (P0Event.retakeClick true true)).prediction = none
    ∧ (dispatch0 (dispatch0 s (P0Event.captureClick true img))
        (P0Event.retakeClick true true)).error = none
    ∧ (dispatch0 (dispatch0 s (P0Event.captureClick true img))
        (P0Event.retakeClick true true)).cameraActive = true := by
  simp [dispatch0, captureImage0, resetCamera0, startCamera0, h]

/-- A concrete camera-active session state. -/
def cameraOnState : P0State :=
  { model := true, prediction := none, isLoading := false, cameraActive := true,
    capturedImage := none, error := none, trackLive := true }

/-- Witness for the amended C9 at a concrete camera-active state. -/
theorem reset_after_capture_clears_and_restarts_witness :
    (dispatch0 (dispatch0 cameraOnState (P0Event.captureClick true "frame"))
        (P0Event.retakeClick true true)).capturedImage = none
    ∧ (dispatch0 (dispatch0 cameraOnState (P0Event.captureClick true "frame"))
        (P0Event.retakeClick true true)).prediction = none
    ∧ (dispatch0 (dispatch0 cameraOnState (P0Event.captureClick true "frame"))
        (P0Event.retakeClick true true)).error = none
    ∧ (dispatch0 (dispatch0 cameraOnState (P0Event.captureClick true "frame"))
        (P0Event.retakeClick true true)).cameraActive = true :=
  reset_after_capture_clears_and_restarts cameraOnState "frame" rfl

/-- Claim C10: in every reachable session state of the still-capture flow,
an active camera and a stored captured image are mutually exclusive —
`startCamera` clears the stored image before activating the camera and
`captureImage` deactivates the camera when it stores the image. -/
theorem camera_image_mutually_exclusive (s : P0State) (h : P0Reachable s) :
    ¬(s.cameraActive = true ∧ s.capturedImage.isSome = true) :=
  (p0_reachable_inv h).2

/-- Witness for C10 at the state right after a successful model load. -/
theorem camera_image_mutually_exclusive_witness :
    ¬((p0Start true).cameraActive = true ∧ (p0Start true).capturedImage.isSome = true) :=
  camera_image_mutually_exclusive (p0Start true) (P0Reachable.start true)

/-- Session state of the live test-page variant: this variant keeps the
camera streaming across captures; `srcStream` records whether the video
element still holds the stream (`videoRef.current.srcObject`). -/
structure TState where
  model : Bool
  prediction : Option ClassLabel
  isPredicting : Bool
  error : Option String
  cameraActive : Bool
  srcStream : Bool
  trackLive : Bool
deriving DecidableEq

/-- The `startCamera` handler of the test-page variant: prediction and error
are cleared before the try block; on grant the acquired tracks are live and,
when the video element is mounted, the stream is attached and the camera
marked active; on denial the catch stores the error message. -/
def startCameraT (s : TState) (grant videoPresent : Bool) : TState :=
  let s1 := { s with prediction := none, error := none }
  if grant then
    if videoPresent then
      { s1 with srcStream := true, trackLive := true, cameraActive := true }
    else
      { s1 with trackLive := true }
  else
    { s1 with error := some "Unable to access camera." }

/-- The `stopCamera` handler of the test-page variant: when the video
element holds a stream, its tracks are stopped, the element detached and
the camera marked inactive. -/
def stopCameraT (s : TState) : TState :=
  if s.srcStream then
    { s with trackLive := false, srcStream := false, cameraActive := false }
  else s

/-- The `captureAndPredict` handler of the test-page variant: it draws the
current frame on a 256 by 256 canvas and runs the tensor pipeline on it;
the camera stream is left running so the user can capture again.  When the
canvas yields no 2d context the handler returns after having already set
the busy flag. -/
def captureAndPredictT (s : TState) (refsPresent ctxPresent : Bool)
    (fwd : ForwardOutcome) (rd : ReadOutcome) : TState :=
  if s.model = false ∨ refsPresent = false then s
  else
    let s1 := { s with isPredicting := true, error := none }
    if ctxPresent = false then s1
    else
      match fwd with
      | ForwardOutcome.throws =>
          { s1 with error := some "Prediction failed.", isPredicting := false }
      | ForwardOutcome.returns data =>
          match rd with
          | ReadOutcome.throws =>
              { s1 with error := some "Prediction failed.", isPredicting := false }
          | ReadOutcome.returns =>
              { s1 with prediction := predictLabel data, isPredicting := false }

/-- Unmount of the test-page variant: its mount effect registers no cleanup
function, so nothing happens to the held stream. -/
def unmountT (s : TState) : TState := s

/-- Test-page state right after a successful model load. -/
def tStart : TState :=
  { model := true, prediction := none, isPredicting := false, error := none,
    cameraActive := false, srcStream := false, trackLive := false }

/-- Counterexample to C8: in the test-page variant the camera tracks stay
live both after a successful capture-and-predict (the stream is kept for
repeated captures) and after component unmount (no cleanup is registered),
so a session can terminate with a still-active camera track. -/
theorem testpage_track_survives :
    (unmountT (startCameraT tStart true true)).trackLive = true
    ∧ (captureAndPredictT (startCameraT tStart true true) true true
        (ForwardOutcome.returns [1, 0, 0, 0]) ReadOutcome.returns).trackLive = true :=
  ⟨rfl, rfl⟩

/-- Claim C8 as amended: in the stream-capture variant the device handle is
released whenever the stream is no longer needed — the unmount cleanup of
the mount effect always stops the stream tracks, and a successful still
capture stops them as well; the test-page variant keeps the stream across
captures and registers no unmount cleanup, releasing it only on its explicit
Close Camera control. -/
theorem p0_release_on_capture_and_unmount (s : P0State) (img : String)
    (h : s.cameraActive = true) :
    (dispatch0 s P0Event.unmount).trackLive = false
    ∧ (dispatch0 s (P0Event.captureClick true img)).trackLive = false := by
  constructor
  · rfl
  · simp [dispatch0, captureImage0, h]

/-- Witness for the amended C8 at a concrete camera-active state. -/
theorem p0_release_on_capture_and_unmount_witness :
    (dispatch0 cameraOnState P0Event.unmount).trackLive = false
    ∧ (dispatch0 cameraOnState (P0Event.captureClick true "frame")).trackLive = false :=
  p0_release_on_capture_and_unmount cameraOnState "frame" rfl

/-- Session state of the snapshot-library page variant (react-camera-pro). -/
structure P2State where
  model : Bool
  image : Option String
  prediction : Option ClassLabel
  isPredicting : Bool
  error : Option String
  cameraActive : Bool
deriving DecidableEq

/-- Resolution of one `takeAndPredict` call of the snapshot variant:
`takePhoto` either throws, or returns a photo whose decode never completes
(this variant installs an `onload` callback but no `onerror` handler, so a
failed decode runs no continuation at all), or decodes and the pipeline
fails, or decodes and inference succeeds. -/
inductive P2Outcome
  | photoFail
  | decodeNever (photo : String)
  | runFail (photo : String)
  | success (photo : String) (data : List ℚ)

/-- The `takeAndPredict` handler of the snapshot variant: it returns unless
the camera component and the model are present; it sets the busy flag and
clears prediction and error; a throwing `takePhoto` is caught and stores the
error, a decoded photo is stored and the camera deactivated before the
pipeline runs; a photo that never decodes leaves the remaining updates
unexecuted. -/
def takeAndPredict2 (s : P2State) (o : P2Outcome) : P2State :=
  if s.cameraActive = false ∨ s.model = false then s
  else
    let s1 := { s with isPredicting := true, prediction := none, error := none }
    match o with
    | P2Outcome.photoFail =>
        { s1 with error := some "Failed to capture photo.", isPredicting := false }
    | P2Outcome.decodeNever photo =>
        { s1 with image := some photo, cameraActive := false }
    | P2Outcome.runFail photo =>
        { s1 with image := some photo, cameraActive := false,
                  error := some "Prediction failed.", isPredicting := false }
    | P2Outcome.success photo data =>
        { s1 with image := some photo, cameraActive := false,
                  prediction := predictLabel data, isPredicting := false }

/-- Snapshot-variant state with the model loaded and the camera open. -/
def p2Ready : P2State :=
  { model := true, image := none, prediction := none, isPredicting := false,
    error := none, cameraActive := true }

/-- Claim C7 fails on the code: in the snapshot variant a captured photo
whose decode fails is an image-decoding failure that leaves the busy flag
stuck at true and the error field unset — the handler installs no
`img.onerror` callback, so the failure is silently swallowed, against the
stated contract that every failure sets the error and clears busy. -/
theorem snapshot_decode_failure_swallowed :
    (takeAndPredict2 p2Ready (P2Outcome.decodeNever "photo")).isPredicting = true
    ∧ (takeAndPredict2 p2Ready (P2Outcome.decodeNever "photo")).error = none :=
  ⟨rfl, rfl⟩
